import Mathlib

/-!
Shallow embedding of the order-signing and interaction-building scripts
(`sign_order.py` and `transaction_to_interaction.py`) of the playground.

Python values flowing through the scripts (JSON null, strings, integers,
booleans) are modelled by the inductive `JVal`; Python dicts, which preserve
insertion order, are modelled as ordered association lists; raised exceptions
are modelled as `Except`/`Option` failure values; text is modelled as
`List Char` with Python slice semantics (a negative end index counts from the
end of the string) made explicit.
-/

/-- Python value as it appears in the scripts: JSON null / Python `None`,
strings, (arbitrary-precision) integers, and booleans. -/
inductive JVal where
  | null : JVal
  | str : String → JVal
  | int : Int → JVal
  | bool : Bool → JVal
deriving DecidableEq, Repr

/-- First value bound to a key in an ordered association list (Python dict
lookup; the scripts never build dicts with duplicate keys). -/
def findVal (k : String) : List (String × JVal) → Option JVal
  | [] => Option.none
  | (k', v) :: rest => if k' = k then some v else findVal k rest

/-! ### Typed-data builder (`create_order_typed_data`) -/

/-- One `{"name": ..., "type": ...}` entry of an EIP-712 type declaration. -/
structure TypedField where
  name : String
  type : String
deriving DecidableEq, Repr

/-- EIP-712 domain object built by `create_order_typed_data`. -/
structure Eip712Domain where
  name : String
  version : String
  chainId : Int
  verifyingContract : String
deriving DecidableEq, Repr

/-- The typed-data document returned by `create_order_typed_data`. -/
structure TypedDataDocument where
  types : List (String × List TypedField)
  primaryType : String
  domain : Eip712Domain
  message : List (String × JVal)
deriving DecidableEq, Repr

/-- The fixed `EIP712Domain` type declaration of the script. -/
def eip712DomainFields : List TypedField :=
  [⟨"name", "string"⟩, ⟨"version", "string"⟩, ⟨"chainId", "uint256"⟩,
   ⟨"verifyingContract", "address"⟩]

/-- The fixed `Order` type declaration of the script: twelve fields in the
declared order. -/
def orderFields : List TypedField :=
  [⟨"sellToken", "address"⟩, ⟨"buyToken", "address"⟩, ⟨"receiver", "address"⟩,
   ⟨"sellAmount", "uint256"⟩, ⟨"buyAmount", "uint256"⟩, ⟨"validTo", "uint32"⟩,
   ⟨"appData", "bytes32"⟩, ⟨"feeAmount", "uint256"⟩, ⟨"kind", "string"⟩,
   ⟨"partiallyFillable", "bool"⟩, ⟨"sellTokenBalance", "string"⟩,
   ⟨"buyTokenBalance", "string"⟩]

/-- The constant `types` mapping of the script. -/
def fixedTypes : List (String × List TypedField) :=
  [("EIP712Domain", eip712DomainFields), ("Order", orderFields)]

/-- Embedding of `create_order_typed_data(chain_id, verifying_contract,
order_params)` from `sign_order.py`. -/
def create_order_typed_data (chain_id : Int) (verifying_contract : String)
    (order_params : List (String × JVal)) : TypedDataDocument :=
  { types := fixedTypes
    primaryType := "Order"
    domain :=
      { name := "Gnosis Protocol", version := "v2", chainId := chain_id,
        verifyingContract := verifying_contract }
    message := order_params }

/-! ### Calldata extractor (`extract_calldata`) -/

/-- The literal text of the regular expression `r"Calldata: "` (it contains no
regex metacharacters, so `re.search` is first-substring search). -/
def calldataMarker : List Char :=
  ['C', 'a', 'l', 'l', 'd', 'a', 't', 'a', ':', ' ']

/-- The literal text of the regular expression `r"Value: "`. -/
def valueMarker : List Char :=
  ['V', 'a', 'l', 'u', 'e', ':', ' ']

/-- Index of the first occurrence of `pat` in `s` (Python `re.search` on a
metacharacter-free pattern); `none` when there is no match. -/
def strFind (pat : List Char) : List Char → Option Nat
  | [] => if pat.isPrefixOf ([] : List Char) then some 0 else Option.none
  | c :: rest =>
    if pat.isPrefixOf (c :: rest) then some 0
    else (strFind pat rest).map (· + 1)

/-- Effective end index of the Python slice `s[i:j]` for `j : Int`: a negative
`j` counts from the end of the string, clamped at 0. -/
def pyEnd (len : Nat) (j : Int) : Nat :=
  if j < 0 then ((len : Int) + j).toNat else j.toNat

/-- Python slice `s[i:j]` for a non-negative start index `i` and a possibly
negative end index `j`. -/
def pySlice (s : List Char) (i : Nat) (j : Int) : List Char :=
  (s.drop i).take (pyEnd s.length j - i)

/-- Embedding of `extract_calldata(input_string)` from
`transaction_to_interaction.py`.  When a marker is missing, `re.search`
returns `None` and the subsequent `.span()` call raises; this is modelled by
`Option.none`. -/
def extract_calldata (input_string : List Char) : Option (List Char) :=
  match strFind calldataMarker input_string with
  | Option.none => Option.none
  | some st =>
    let start_index := st + calldataMarker.length
    match strFind valueMarker input_string with
    | Option.none => Option.none
    | some vi =>
      let end_index : Int := (vi : Int) - 11
      some (pySlice input_string start_index end_index)

/-! ### Interaction assembler -/

/-- A single settlement interaction `{target, callData, value}`. -/
structure Interaction where
  target : String
  callData : String
  value : String
deriving DecidableEq, Repr

/-- Serialization of an interaction as its ordered JSON key/value pairs. -/
def interactionPairs (i : Interaction) : List (String × String) :=
  [("target", i.target), ("callData", i.callData), ("value", i.value)]

/-- The Permit2 contract address hard-coded in the script. -/
def permit2_address : String := "0x000000000022D473030F116dDEE9F6B43aC78BA3"

/-- The router contract address hard-coded in the script. -/
def router_address : String := "0x66a9893cc07d91d95644aedd05d03f95e1dba8af"

/-- Embedding of the final `json.dumps([...])` list of
`transaction_to_interaction.py`: the approval interaction followed by the
router swap interaction, both with value `"0"`. -/
def assemble_interactions (permit2_call_data router_call_data : String) :
    List Interaction :=
  [⟨permit2_address, permit2_call_data, "0"⟩,
   ⟨router_address, router_call_data, "0"⟩]

/-! ### Parameter normalizer (`normalize_order_params`) -/

/-- The required numeric fields of `normalize_order_params`. -/
def requiredNumeric : List String := ["sellAmount", "buyAmount", "validTo"]

/-- The numeric fields of `normalize_order_params`. -/
def numericFields : List String :=
  ["sellAmount", "buyAmount", "feeAmount", "validTo", "chainId"]

/-- The `ValueError`s raised by `normalize_order_params`, tagged with the
field name the message carries. -/
inductive NormError where
  | nullRequired : String → NormError
  | invalidValue : String → NormError
  | missingRequired : String → NormError
deriving DecidableEq, Repr

/-- The field name carried by a `NormError` message. -/
def NormError.field : NormError → String
  | .nullRequired f => f
  | .invalidValue f => f
  | .missingRequired f => f

/-- Python truthiness `bool(value)` on the values the script handles. -/
def truthy : JVal → Bool
  | .null => false
  | .str s => s ≠ ""
  | .int n => n ≠ 0
  | .bool b => b

/-- Value of a decimal digit character, `none` for a non-digit. -/
def charDigit? (c : Char) : Option Nat :=
  if '0' ≤ c ∧ c ≤ '9' then some (c.toNat - '0'.toNat) else Option.none

/-- Accumulating decimal parse of a digit string. -/
def natOfDigitsAux (acc : Nat) : List Char → Option Nat
  | [] => some acc
  | c :: cs =>
    match charDigit? c with
    | some d => natOfDigitsAux (10 * acc + d) cs
    | Option.none => Option.none

/-- Python `int(s)` on a string: an optional sign followed by at least one
decimal digit (surrounding whitespace and underscore separators, which the
scripts never feed it, are not modelled); `none` models the raised
`ValueError`. -/
def strToInt? (s : String) : Option Int :=
  match s.toList with
  | [] => Option.none
  | '-' :: rest =>
    if rest = [] then Option.none
    else (natOfDigitsAux 0 rest).map (fun n => -(n : Int))
  | '+' :: rest =>
    if rest = [] then Option.none
    else (natOfDigitsAux 0 rest).map (fun n => (n : Int))
  | l => (natOfDigitsAux 0 l).map (fun n => (n : Int))

/-- Python `int(value)` on the values the script handles; `none` models the
raised `ValueError`/`TypeError`. -/
def pyInt? : JVal → Option Int
  | .null => Option.none
  | .str s => strToInt? s
  | .int n => some n
  | .bool b => some (if b then 1 else 0)

/-- Python `value.lower()` (the values compared against are ASCII), written
over the character list so it evaluates by kernel reduction. -/
def pyLower (s : String) : String := String.mk (s.data.map Char.toLower)

/-- Loop body of `normalize_order_params`: normalization of one
`(key, value)` dict entry. -/
def normalizeEntry (key : String) (value : JVal) : Except NormError JVal :=
  if value = .str "null" ∨ value = .null then
    if key ∈ requiredNumeric then .error (.nullRequired key)
    else .ok .null
  else if key ∈ numericFields then
    if truthy value then
      match pyInt? value with
      | some n => .ok (.int n)
      | Option.none =>
        if key ∈ requiredNumeric then .error (.invalidValue key)
        else .ok (.int 0)
    else .ok (.int 0)
  else if key = "partiallyFillable" then
    match value with
    | .bool b => .ok (.bool b)
    | .str s => .ok (.bool (["true", "1", "yes"].contains (pyLower s)))
    | v => .ok (.bool (truthy v))
  else .ok value

/-- The `for key, value in params.items()` loop of `normalize_order_params`,
building the normalized dict in iteration order. -/
def normalizeList : List (String × JVal) → Except NormError (List (String × JVal))
  | [] => .ok []
  | (k, v) :: rest =>
    match normalizeEntry k v with
    | .error e => .error e
    | .ok v' =>
      match normalizeList rest with
      | .error e => .error e
      | .ok rest' => .ok ((k, v') :: rest')

/-- The final `for field in required_numeric` validation loop of
`normalize_order_params`. -/
def checkRequired : List String → List (String × JVal) → Except NormError Unit
  | [], _ => .ok ()
  | f :: fs, normalized =>
    match findVal f normalized with
    | Option.none => .error (.missingRequired f)
    | some .null => .error (.missingRequired f)
    | some _ => checkRequired fs normalized

/-- Embedding of `normalize_order_params(params)` from `sign_order.py`. -/
def normalize_order_params (params : List (String × JVal)) :
    Except NormError (List (String × JVal)) :=
  match normalizeList params with
  | .error e => .error e
  | .ok normalized =>
    match checkRequired requiredNumeric normalized with
    | .error e => .error e
    | .ok _ => .ok normalized

/-! ### Signer and payload assembler (`sign_order`) -/

/-- The u256 amount fields converted to strings by `sign_order`. -/
def amountKeys : List String := ["sellAmount", "buyAmount", "feeAmount"]

/-- Python `str(value)` on the values the script handles. -/
def pyStr : JVal → String
  | .null => "None"
  | .str s => s
  | .int n => toString n
  | .bool b => if b then "True" else "False"

/-- The lowercase hexadecimal digits used by Python `bytes.hex()`. -/
def hexDigits : List Char := "0123456789abcdef".data

/-- Two-character lowercase hex rendering of one byte. -/
def byteHex (b : Nat) : List Char :=
  [hexDigits.getD (b / 16) '0', hexDigits.getD (b % 16) '0']

/-- Python `bytes.hex()`: lowercase hex rendering of a byte string. -/
def bytesToHex : List Nat → List Char
  | [] => []
  | b :: bs => byteHex b ++ bytesToHex bs

/-- Loop body of the payload-building loop of `sign_order`: u256 amount
fields become decimal strings, `validTo` goes through `int(...)` (which can
raise, modelled by `none`), everything else passes through. -/
def payloadEntry (key : String) (value : JVal) : Option JVal :=
  if key ∈ amountKeys ∧ value ≠ .null then some (.str (pyStr value))
  else if key = "validTo" ∧ value ≠ .null then (pyInt? value).map JVal.int
  else some value

/-- The `for key, value in order_params.items()` loop of `sign_order`. -/
def payloadFields : List (String × JVal) → Option (List (String × JVal))
  | [] => some []
  | (k, v) :: rest =>
    match payloadEntry k v with
    | Option.none => Option.none
    | some v' =>
      match payloadFields rest with
      | Option.none => Option.none
      | some rest' => some ((k, v') :: rest')

/-- Embedding of `sign_order(private_key, chain_id, settlement_contract,
order_params)` from `sign_order.py`.  The `eth_account` library is an
external collaborator, not repository code, so its two operations are
abstracted as parameters: `signFn` models
`Account.sign_message(encode_typed_data(typed_data)).signature` (a 65-byte
r‖s‖v signature per the library contract) and `addrFn` models
`Account.from_key(private_key).address` (the checksum address
deterministically derived from the key). -/
def sign_order (signFn : String → TypedDataDocument → List Nat)
    (addrFn : String → String) (private_key : String) (chain_id : Int)
    (settlement_contract : String) (order_params : List (String × JVal)) :
    Option (List (String × JVal)) :=
  let typed_data := create_order_typed_data chain_id settlement_contract
    order_params
  let sigBytes := signFn private_key typed_data
  match payloadFields order_params with
  | Option.none => Option.none
  | some base =>
    some (base ++
      [("signingScheme", .str "eip712"),
       ("signature", .str ("0x" ++ String.mk (bytesToHex sigBytes))),
       ("from", .str (addrFn private_key))])

/-- Input with required fields present but falsy: empty-string sellAmount and
integer-zero buyAmount. -/
def falsyParams : List (String × JVal) :=
  [("sellAmount", .str ""), ("buyAmount", .int 0), ("validTo", .str "7")]

/-- Router-style text in which a "Value: " occurrence precedes the first
"Calldata: " occurrence: `"Value: 0\nCalldata: 0xabc\nValue: 1\n"`. -/
def valueFirstText : List Char :=
  valueMarker ++ ['0', '\n'] ++ calldataMarker ++
    ['0', 'x', 'a', 'b', 'c', '\n'] ++ valueMarker ++ ['1', '\n']

/-- Concatenated text "Calldata: Value: 0": the first "Value: " begins only
10 characters in, so the fixed trim of 11 reaches before the start of the
inter-marker region. -/
def adjacentMarkerText : List Char := calldataMarker ++ valueMarker ++ ['0']

/-- Router-style text "Calldata: 0xdead" followed by 11 filler characters and
"Value: 0": the documented fixed trailing trim of 11. -/
def routerText : List Char :=
  calldataMarker ++ ['0', 'x', 'd', 'e', 'a', 'd'] ++
    ['A', 'A', 'A', 'A', 'A', 'A', 'A', 'A', 'A', 'A', 'A'] ++
    valueMarker ++ ['0']

/-- Order parameters whose three required fields normalize to 1, 2, 3 and
whose partiallyFillable field carries an arbitrary raw value. -/
def pfParams (v : JVal) : List (String × JVal) :=
  [("sellAmount", .str "1"), ("buyAmount", .str "2"), ("validTo", .str "3"),
   ("partiallyFillable", v)]

/-- Normalized partiallyFillable value as the code computes it: a native
boolean stays, a string (other than the sentinel "null") is compared
case-insensitively against {"true", "1", "yes"}, null and "null" become
null, and any other value is mapped through Python truthiness. -/
def pfExpected : JVal → JVal
  | .null => .null
  | .str s =>
    if s = "null" then .null
    else .bool (["true", "1", "yes"].contains (pyLower s))
  | .int n => .bool (truthy (.int n))
  | .bool b => .bool b

/-- Raw value the normalizer treats as null: the sentinel string "null" (from
bash/jq) or Python `None`. -/
def nullish (v : JVal) : Prop := v = .str "null" ∨ v = .null

/-- The raw input of field `f` is absent, null, or the sentinel "null". -/
def badNull (f : String) (params : List (String × JVal)) : Prop :=
  findVal f params = Option.none ∨
    ∃ v, findVal f params = some v ∧ nullish v

/-- Field `f` is required and its raw input is offending: absent, nullish, or
a truthy value that `int(...)` rejects — exactly the conditions under which
the code's error messages name `f`. -/
def offendingField (f : String) (params : List (String × JVal)) : Prop :=
  f ∈ requiredNumeric ∧
    (findVal f params = Option.none ∨
     ∃ v, (f, v) ∈ params ∧
       (nullish v ∨ (truthy v = true ∧ pyInt? v = Option.none)))

/-- The spec's round-trip example: buyAmount is JSON null. -/
def nullParams : List (String × JVal) :=
  [("sellAmount", .str "1000"), ("buyAmount", .null), ("validTo", .str "123")]

/-- Mixed-shape raw parameters on which normalization succeeds. -/
def idemParams : List (String × JVal) :=
  [("sellAmount", .str "5"), ("buyAmount", .str "6"), ("validTo", .str "7"),
   ("receiver", .str "null"), ("partiallyFillable", .str "true")]

/-- The normalized form of `idemParams`. -/
def idemNormalized : List (String × JVal) :=
  [("sellAmount", .int 5), ("buyAmount", .int 6), ("validTo", .int 7),
   ("receiver", .null), ("partiallyFillable", .bool true)]

/-- A concrete stand-in for the library signer: 65 zero bytes. -/
def constSig : String → TypedDataDocument → List Nat :=
  fun _ _ => List.replicate 65 0

/-- A concrete stand-in for the library address derivation. -/
def constAddr : String → String := fun _ => "0xSignerAddress"

/-- A concrete normalized order for exercising `sign_order`. -/
def signParams : List (String × JVal) :=
  [("sellAmount", .int 1000), ("feeAmount", .null), ("validTo", .int 77),
   ("kind", .str "sell")]

/-- The payload `sign_order` produces from `signParams` under `constSig` and
`constAddr`. -/
def signPayload : List (String × JVal) :=
  [("sellAmount", .str "1000"), ("feeAmount", .null), ("validTo", .int 77),
   ("kind", .str "sell"),
   ("signingScheme", .str "eip712"),
   ("signature", .str ("0x" ++ String.mk (List.replicate 130 '0'))),
   ("from", .str "0xSignerAddress")]

/-! ## Claims -/


/-- C1: for every chainId, verifyingContract and order, the typed-data
document has the fixed constant two-type schema (EIP712Domain with its four
fields and Order with exactly the twelve canonical fields in declared order),
domain name "Gnosis Protocol" and version "v2", primaryType "Order", a message
equal to the given order fields, and building twice from the same input yields
identical structures. -/
theorem C1_typed_data_fixed_schema (chain_id : Int) (verifying_contract : String)
    (order_params : List (String × JVal)) :
    (create_order_typed_data chain_id verifying_contract order_params).types =
      [("EIP712Domain",
        [⟨"name", "string"⟩, ⟨"version", "string"⟩, ⟨"chainId", "uint256"⟩,
         ⟨"verifyingContract", "address"⟩]),
       ("Order",
        [⟨"sellToken", "address"⟩, ⟨"buyToken", "address"⟩,
         ⟨"receiver", "address"⟩, ⟨"sellAmount", "uint256"⟩,
         ⟨"buyAmount", "uint256"⟩, ⟨"validTo", "uint32"⟩,
         ⟨"appData", "bytes32"⟩, ⟨"feeAmount", "uint256"⟩,
         ⟨"kind", "string"⟩, ⟨"partiallyFillable", "bool"⟩,
         ⟨"sellTokenBalance", "string"⟩, ⟨"buyTokenBalance", "string"⟩])] ∧
    (create_order_typed_data chain_id verifying_contract order_params).domain =
      ⟨"Gnosis Protocol", "v2", chain_id, verifying_contract⟩ ∧
    (create_order_typed_data chain_id verifying_contract order_params).primaryType
      = "Order" ∧
    (create_order_typed_data chain_id verifying_contract order_params).message =
      order_params ∧
    create_order_typed_data chain_id verifying_contract order_params =
      create_order_typed_data chain_id verifying_contract order_params :=
  ⟨rfl, rfl, rfl, rfl, rfl⟩

/-- C7: for every approval/swap calldata pair, the emitted array is exactly
the approval interaction (Permit2 target) at index 0 and the router swap at
index 1, each serialized with exactly the keys target, callData, value in
that order and with value "0"; nothing is reordered, deduplicated or
merged. -/
theorem C7_interaction_order (permit2_call_data router_call_data : String) :
    (assemble_interactions permit2_call_data router_call_data).map
        interactionPairs =
      [[("target", permit2_address), ("callData", permit2_call_data),
        ("value", "0")],
       [("target", router_address), ("callData", router_call_data),
        ("value", "0")]] :=
  rfl

/-- C8: a required numeric field that is present with a non-null falsy value
(empty string, integer 0) is silently defaulted to 0 by
`normalize_order_params` instead of raising. -/
theorem C8_falsy_required_defaults_to_zero :
    normalize_order_params falsyParams =
      .ok [("sellAmount", .int 0), ("buyAmount", .int 0),
           ("validTo", .int 7)] ∧
    findVal "sellAmount"
        [("sellAmount", JVal.int 0), ("buyAmount", JVal.int 0),
         ("validTo", JVal.int 7)] = some (.int 0) ∧
    findVal "buyAmount"
        [("sellAmount", JVal.int 0), ("buyAmount", JVal.int 0),
         ("validTo", JVal.int 7)] = some (.int 0) :=
  ⟨rfl, rfl, rfl⟩

/-- C9: on text whose first "Value: " precedes the first "Calldata: ", the
extractor raises nothing and returns "0xab", which is neither the (empty)
trimmed inter-marker text nor the untrimmed text "0xabc\n" between the
"Calldata: " marker and the following "Value: " marker, because the end
marker is searched from the beginning of the text. -/
theorem C9_end_marker_searched_from_start :
    strFind valueMarker valueFirstText = some 0 ∧
    strFind calldataMarker valueFirstText = some 9 ∧
    extract_calldata valueFirstText = some ['0', 'x', 'a', 'b'] ∧
    (['0', 'x', 'a', 'b'] : List Char) ≠ [] ∧
    (['0', 'x', 'a', 'b'] : List Char) ≠ ['0', 'x', 'a', 'b', 'c', '\n'] := by
  refine ⟨by decide, by decide, by decide, by decide, by decide⟩

/-- C4: when either literal marker is absent from the input, the extractor
fails (the `re.search` miss makes the `.span()` call raise) and no empty or
defaulted calldata string is returned. -/
theorem C4_missing_marker_fails (input_string : List Char)
    (h : strFind calldataMarker input_string = Option.none ∨
         strFind valueMarker input_string = Option.none) :
    extract_calldata input_string = Option.none := by
  cases hc : strFind calldataMarker input_string with
  | none => simp [extract_calldata, hc]
  | some st =>
    rcases h with h | h
    · rw [h] at hc; cases hc
    · simp [extract_calldata, hc, h]

/-- Witness for C4 at the concrete marker-free input "no markers". -/
theorem C4_missing_marker_fails_witness :
    strFind calldataMarker
        ['n', 'o', ' ', 'm', 'a', 'r', 'k', 'e', 'r', 's'] = Option.none ∧
    extract_calldata ['n', 'o', ' ', 'm', 'a', 'r', 'k', 'e', 'r', 's'] =
      Option.none :=
  ⟨by decide,
   C4_missing_marker_fails ['n', 'o', ' ', 'm', 'a', 'r', 'k', 'e', 'r', 's']
     (Or.inl (by decide))⟩

/-- Counterexample to C5 as stated: on "Calldata: Value: 0" (markers present,
"Value: " after "Calldata: ") the region between the markers is empty, so the
claimed substring (from position 10 to 11 characters before position 10) is
empty, yet the extractor returns the seven characters "Value: " — Python's
negative slice end `10 - 11 = -1` wraps to `len - 1`. -/
theorem C5_counterexample_negative_wrap :
    strFind calldataMarker adjacentMarkerText = some 0 ∧
    strFind valueMarker adjacentMarkerText = some 10 ∧
    ((adjacentMarkerText.take (10 - 11)).drop (0 + 10) : List Char) = [] ∧
    extract_calldata adjacentMarkerText = some valueMarker ∧
    valueMarker ≠ ([] : List Char) := by
  refine ⟨by decide, by decide, by decide, by decide, by decide⟩

/-- C5 (amended): when the first "Calldata: " occurrence at `i` is followed
by the first "Value: " occurrence at `j` and `j` is at least 11 characters
into the text (so the fixed trim does not produce a negative Python slice
index), the extractor returns exactly the substring starting immediately
after the "Calldata: " marker and ending 11 characters before the start of
the "Value: " marker. -/
theorem C5_extract_between_markers (s : List Char) (i j : Nat)
    (hc : strFind calldataMarker s = some i)
    (hv : strFind valueMarker s = some j)
    (hij : i < j) (h11 : 11 ≤ j) :
    extract_calldata s = some ((s.take (j - 11)).drop (i + 10)) := by
  have hj : ¬((j : Int) - 11 < 0) := by omega
  have htn : ((j : Int) - 11).toNat = j - 11 := by omega
  have h10 : calldataMarker.length = 10 := rfl
  have _ := hij
  simp only [extract_calldata, hc, hv, h10]
  rw [List.drop_take]
  simp only [pySlice, pyEnd, if_neg hj, htn]

/-- Witness for C5 (amended) at the concrete router-style text: the markers
sit at 0 and 27 and the extractor returns exactly "0xdead". -/
theorem C5_extract_between_markers_witness :
    strFind calldataMarker routerText = some 0 ∧
    strFind valueMarker routerText = some 27 ∧
    0 < 27 ∧ 11 ≤ 27 ∧
    extract_calldata routerText =
      some ((routerText.take (27 - 11)).drop (0 + 10)) ∧
    ((routerText.take (27 - 11)).drop (0 + 10) : List Char) =
      ['0', 'x', 'd', 'e', 'a', 'd'] :=
  ⟨by decide, by decide, by decide, by decide,
   C5_extract_between_markers routerText 0 27 (by decide) (by decide)
     (by decide) (by decide), by decide⟩

/-- Counterexample to C6 as stated: the integer 1 is neither a native boolean
nor a string, so the claim maps it to false, but `normalize_order_params`
maps it through Python truthiness `bool(1)` to true. -/
theorem C6_counterexample_truthy_int :
    normalize_order_params (pfParams (.int 1)) =
      .ok [("sellAmount", .int 1), ("buyAmount", .int 2), ("validTo", .int 3),
           ("partiallyFillable", .bool true)] ∧
    JVal.bool true ≠ JVal.bool false :=
  ⟨rfl, by decide⟩

/-- C6 (amended): normalize_order_params maps a native partiallyFillable
boolean to itself and a string (other than the sentinel "null") to true
exactly when its lower-casing is one of "true", "1", "yes" — so "YES" yields
true and "0" yields false — but maps null and the sentinel "null" to null and
every other value to its Python truthiness (so the integer 1 yields true and
0 yields false), not uniformly to false. -/
theorem C6_partially_fillable_mapping :
    (∀ v : JVal, normalize_order_params (pfParams v) =
      .ok [("sellAmount", .int 1), ("buyAmount", .int 2), ("validTo", .int 3),
           ("partiallyFillable", pfExpected v)]) ∧
    pfExpected (.str "YES") = .bool true ∧
    pfExpected (.str "0") = .bool false ∧
    pfExpected (.bool true) = .bool true ∧
    pfExpected (.bool false) = .bool false ∧
    pfExpected (.int 1) = .bool true ∧
    pfExpected (.int 0) = .bool false ∧
    pfExpected .null = .null ∧
    pfExpected (.str "null") = .null := by
  refine ⟨fun v => ?_, by decide, by decide, by decide, by decide, by decide,
    by decide, by decide, by decide⟩
  cases v with
  | null => rfl
  | bool b => rfl
  | int n => rfl
  | str s =>
    by_cases hs : s = "null"
    · subst hs; rfl
    · simp [normalize_order_params, pfParams, normalizeList, normalizeEntry,
        pfExpected, hs, checkRequired, findVal, requiredNumeric, numericFields,
        truthy, pyInt?, strToInt?, natOfDigitsAux, charDigit?]


/-- An error raised inside the normalization loop names the processed key,
which is required and either nullish or truthy-but-unparseable. -/
theorem normalizeEntry_error_cases (k : String) (v : JVal) (e : NormError)
    (h : normalizeEntry k v = .error e) :
    e.field = k ∧ k ∈ requiredNumeric ∧
      (nullish v ∨ (truthy v = true ∧ pyInt? v = Option.none)) := by
  unfold normalizeEntry at h
  split at h
  · -- nullish raw value
    rename_i h1
    split at h
    · rename_i h2
      injection h with he
      exact ⟨he ▸ rfl, h2, Or.inl h1⟩
    · exact absurd h (by simp)
  · rename_i h1
    split at h
    · rename_i h2
      split at h
      · rename_i h3
        split at h
        · exact absurd h (by simp)
        · rename_i hp
          split at h
          · rename_i h4
            injection h with he
            exact ⟨he ▸ rfl, h4, Or.inr ⟨h3, hp⟩⟩
          · exact absurd h (by simp)
      · exact absurd h (by simp)
    · split at h
      · split at h <;> exact absurd h (by simp)
      · exact absurd h (by simp)

/-- An error of the whole loop comes from some entry of the input whose key
the error names. -/
theorem normalizeList_error_cases (params : List (String × JVal))
    (e : NormError) (h : normalizeList params = .error e) :
    ∃ v, (e.field, v) ∈ params ∧ e.field ∈ requiredNumeric ∧
      (nullish v ∨ (truthy v = true ∧ pyInt? v = Option.none)) := by
  induction params with
  | nil => exact absurd h (by simp [normalizeList])
  | cons hd tl ih =>
    obtain ⟨k, v⟩ := hd
    rw [normalizeList] at h
    cases he : normalizeEntry k v with
    | error e' =>
      rw [he] at h
      injection h with he'
      obtain ⟨hf, hreq, hbad⟩ := normalizeEntry_error_cases k v e (he' ▸ he)
      exact ⟨v, by rw [hf]; exact List.mem_cons_self _ _,
        by rw [hf]; exact hreq, hbad⟩
    | ok v' =>
      rw [he] at h
      cases ht : normalizeList tl with
      | error e'' =>
        rw [ht] at h
        injection h with he''
        obtain ⟨w, hw, hreq, hbad⟩ := ih (he'' ▸ ht)
        exact ⟨w, List.mem_cons_of_mem _ hw, hreq, hbad⟩
      | ok rest' => rw [ht] at h; exact absurd h (by simp)

/-- A successful loop preserves the keys in order. -/
theorem normalizeList_ok_keys (params n : List (String × JVal))
    (h : normalizeList params = .ok n) :
    n.map Prod.fst = params.map Prod.fst := by
  induction params generalizing n with
  | nil => simp [normalizeList] at h; subst h; rfl
  | cons hd tl ih =>
    obtain ⟨k, v⟩ := hd
    rw [normalizeList] at h
    cases he : normalizeEntry k v with
    | error e' => rw [he] at h; exact absurd h (by simp)
    | ok v' =>
      rw [he] at h
      cases ht : normalizeList tl with
      | error e'' => rw [ht] at h; exact absurd h (by simp)
      | ok rest' =>
        rw [ht] at h
        injection h with hn
        subst hn
        simp [ih rest' ht]

/-- A successful loop maps the first binding of each key entrywise. -/
theorem normalizeList_ok_lookup (params n : List (String × JVal))
    (f : String) (v : JVal) (h : normalizeList params = .ok n)
    (hv : findVal f params = some v) :
    ∃ v', normalizeEntry f v = .ok v' ∧ findVal f n = some v' := by
  induction params generalizing n with
  | nil => simp [findVal] at hv
  | cons hd tl ih =>
    obtain ⟨k, w⟩ := hd
    rw [normalizeList] at h
    cases he : normalizeEntry k w with
    | error e' => rw [he] at h; exact absurd h (by simp)
    | ok w' =>
      rw [he] at h
      cases ht : normalizeList tl with
      | error e'' => rw [ht] at h; exact absurd h (by simp)
      | ok rest' =>
        rw [ht] at h
        injection h with hn
        subst hn
        by_cases hk : k = f
        · subst hk
          rw [findVal, if_pos rfl] at hv
          injection hv with hv'
          subst hv'
          exact ⟨w', he, by rw [findVal, if_pos rfl]⟩
        · rw [findVal, if_neg hk] at hv
          obtain ⟨v', hv', hfind⟩ := ih rest' ht hv
          exact ⟨v', hv', by rw [findVal, if_neg hk]; exact hfind⟩

/-- Every binding of the normalized dict comes from a raw binding of the
same key. -/
theorem normalizeList_ok_lookup_rev (params n : List (String × JVal))
    (f : String) (v' : JVal) (h : normalizeList params = .ok n)
    (hv : findVal f n = some v') :
    ∃ v, findVal f params = some v ∧ normalizeEntry f v = .ok v' := by
  induction params generalizing n with
  | nil => simp [normalizeList] at h; subst h; simp [findVal] at hv
  | cons hd tl ih =>
    obtain ⟨k, w⟩ := hd
    rw [normalizeList] at h
    cases he : normalizeEntry k w with
    | error e' => rw [he] at h; exact absurd h (by simp)
    | ok w' =>
      rw [he] at h
      cases ht : normalizeList tl with
      | error e'' => rw [ht] at h; exact absurd h (by simp)
      | ok rest' =>
        rw [ht] at h
        injection h with hn
        subst hn
        by_cases hk : k = f
        · subst hk
          rw [findVal, if_pos rfl] at hv
          injection hv with hv'
          subst hv'
          exact ⟨w, by rw [findVal, if_pos rfl], he⟩
        · rw [findVal, if_neg hk] at hv
          obtain ⟨v, hfind, hv'⟩ := ih rest' ht hv
          exact ⟨v, by rw [findVal, if_neg hk]; exact hfind, hv'⟩

/-- A key is unbound exactly when it is not among the keys. -/
theorem findVal_eq_none_iff (f : String) (l : List (String × JVal)) :
    findVal f l = Option.none ↔ f ∉ l.map Prod.fst := by
  induction l with
  | nil => simp [findVal]
  | cons hd tl ih =>
    obtain ⟨k, v⟩ := hd
    by_cases hk : k = f
    · subst hk; simp [findVal]
    · rw [findVal, if_neg hk, ih]
      have hfk : ¬f = k := fun h => hk h.symm
      simp [hfk]

/-- An error of the final validation loop is `missingRequired f` for a
checked field `f` that is unbound or bound to null. -/
theorem checkRequired_error_cases (fs : List String)
    (n : List (String × JVal)) (e : NormError)
    (h : checkRequired fs n = .error e) :
    ∃ f, f ∈ fs ∧ e = .missingRequired f ∧
      (findVal f n = Option.none ∨ findVal f n = some .null) := by
  induction fs with
  | nil => exact absurd h (by simp [checkRequired])
  | cons f fs ih =>
    rw [checkRequired] at h
    cases hv : findVal f n with
    | none =>
      rw [hv] at h
      injection h with he
      exact ⟨f, List.mem_cons_self _ _, he.symm, Or.inl hv⟩
    | some v =>
      rw [hv] at h
      cases v with
      | null =>
        injection h with he
        exact ⟨f, List.mem_cons_self _ _, he.symm, Or.inr hv⟩
      | str s =>
        obtain ⟨g, hg, he, hfind⟩ := ih h
        exact ⟨g, List.mem_cons_of_mem _ hg, he, hfind⟩
      | int m =>
        obtain ⟨g, hg, he, hfind⟩ := ih h
        exact ⟨g, List.mem_cons_of_mem _ hg, he, hfind⟩
      | bool b =>
        obtain ⟨g, hg, he, hfind⟩ := ih h
        exact ⟨g, List.mem_cons_of_mem _ hg, he, hfind⟩

/-- When the final validation loop passes, every checked field is bound to a
non-null value. -/
theorem checkRequired_ok_cases (fs : List String)
    (n : List (String × JVal)) (h : checkRequired fs n = .ok ())
    (f : String) (hf : f ∈ fs) :
    findVal f n ≠ Option.none ∧ findVal f n ≠ some .null := by
  induction fs with
  | nil => cases hf
  | cons g gs ih =>
    rw [checkRequired] at h
    cases hv : findVal g n with
    | none => rw [hv] at h; exact absurd h (by simp)
    | some v =>
      rw [hv] at h
      cases v with
      | null => exact absurd h (by simp)
      | str s =>
        rcases List.mem_cons.mp hf with hfg | hftl
        · subst hfg; rw [hv]; exact ⟨by simp, by simp⟩
        · exact ih h hftl
      | int m =>
        rcases List.mem_cons.mp hf with hfg | hftl
        · subst hfg; rw [hv]; exact ⟨by simp, by simp⟩
        · exact ih h hftl
      | bool b =>
        rcases List.mem_cons.mp hf with hfg | hftl
        · subst hfg; rw [hv]; exact ⟨by simp, by simp⟩
        · exact ih h hftl

/-- The loop body returns null only for a nullish raw value under an
optional key. -/
theorem normalizeEntry_ok_null (k : String) (v : JVal)
    (h : normalizeEntry k v = .ok .null) :
    nullish v ∧ k ∉ requiredNumeric := by
  unfold normalizeEntry at h
  split at h
  · rename_i h1
    split at h
    · exact absurd h (by simp)
    · rename_i h2; exact ⟨h1, h2⟩
  · rename_i h1
    split at h
    · split at h
      · split at h
        · exact absurd h (by simp)
        · split at h
          · exact absurd h (by simp)
          · exact absurd h (by simp)
      · exact absurd h (by simp)
    · split at h
      · split at h <;> exact absurd h (by simp)
      · rename_i h2 h3
        injection h with hv
        exact absurd (Or.inr hv) h1

/-- A nullish raw value under a required key raises `nullRequired`. -/
theorem normalizeEntry_null_required (k : String) (v : JVal)
    (hn : nullish v) (hk : k ∈ requiredNumeric) :
    normalizeEntry k v = .error (.nullRequired k) := by
  have hn' : v = JVal.str "null" ∨ v = JVal.null := hn
  unfold normalizeEntry
  rw [if_pos hn', if_pos hk]

/-- C2: whenever any required field (sellAmount, buyAmount, validTo) is
absent, null, or the sentinel string "null", normalize_order_params raises a
ValueError whose message names an offending field, and no normalized order is
returned; in particular `{"sellAmount": "1000", "buyAmount": null,
"validTo": "123"}` raises the error naming buyAmount. -/
theorem C2_required_null_raises :
    (∀ (params : List (String × JVal)) (f : String), f ∈ requiredNumeric →
      badNull f params →
      ∃ e, normalize_order_params params = .error e ∧
        offendingField e.field params) ∧
    normalize_order_params nullParams =
      .error (.nullRequired "buyAmount") := by
  constructor
  · intro params f hf hbad
    cases hl : normalizeList params with
    | error e =>
      refine ⟨e, ?_, ?_⟩
      · simp [normalize_order_params, hl]
      · obtain ⟨v, hv, hreq, hb⟩ := normalizeList_error_cases params e hl
        exact ⟨hreq, Or.inr ⟨v, hv, hb⟩⟩
    | ok n =>
      cases hc : checkRequired requiredNumeric n with
      | error e =>
        refine ⟨e, ?_, ?_⟩
        · simp [normalize_order_params, hl, hc]
        · obtain ⟨g, hg, he, hfind⟩ := checkRequired_error_cases _ n e hc
          subst he
          rcases hfind with hnone | hsome
          · have hkeys := normalizeList_ok_keys params n hl
            refine ⟨hg, Or.inl ?_⟩
            rw [findVal_eq_none_iff] at hnone ⊢
            rw [← hkeys]
            exact hnone
          · obtain ⟨v, hvp, hve⟩ :=
              normalizeList_ok_lookup_rev params n g .null hl hsome
            obtain ⟨-, hnreq⟩ := normalizeEntry_ok_null g v hve
            exact absurd hg hnreq
      | ok u =>
        cases u
        exfalso
        rcases hbad with hnone | ⟨v, hv, hnul⟩
        · have hne := (checkRequired_ok_cases _ n hc f hf).1
          have hkeys := normalizeList_ok_keys params n hl
          apply hne
          rw [findVal_eq_none_iff, hkeys, ← findVal_eq_none_iff]
          exact hnone
        · obtain ⟨v', hv', -⟩ := normalizeList_ok_lookup params n f v hl hv
          rw [normalizeEntry_null_required f v hnul hf] at hv'
          cases hv'
  · rfl

/-- The normalization loop body is idempotent on its own output. -/
theorem normalizeEntry_idem (k : String) (v v' : JVal)
    (h : normalizeEntry k v = .ok v') : normalizeEntry k v' = .ok v' := by
  unfold normalizeEntry at h
  split at h
  · rename_i h1
    split at h
    · exact absurd h (by simp)
    · rename_i h2
      injection h with hv
      subst hv
      have hn : JVal.null = JVal.str "null" ∨ JVal.null = JVal.null :=
        Or.inr rfl
      unfold normalizeEntry
      rw [if_pos hn, if_neg h2]
  · rename_i h1
    split at h
    · rename_i h2
      split at h
      · rename_i h3
        split at h
        · rename_i n hp
          injection h with hv
          subst hv
          have hnn : ¬(JVal.int n = JVal.str "null" ∨ JVal.int n = JVal.null) :=
            by simp
          unfold normalizeEntry
          rw [if_neg hnn, if_pos h2]
          by_cases hz : n = 0
          · subst hz
            simp [truthy]
          · simp [truthy, pyInt?, hz]
        · rename_i hp
          split at h
          · exact absurd h (by simp)
          · rename_i h4
            injection h with hv
            subst hv
            have hnn : ¬(JVal.int 0 = JVal.str "null" ∨ JVal.int 0 = JVal.null) :=
              by simp
            unfold normalizeEntry
            rw [if_neg hnn, if_pos h2]
            simp [truthy]
      · rename_i h3
        injection h with hv
        subst hv
        have hnn : ¬(JVal.int 0 = JVal.str "null" ∨ JVal.int 0 = JVal.null) :=
          by simp
        unfold normalizeEntry
        rw [if_neg hnn, if_pos h2]
        simp [truthy]
    · rename_i h2
      split at h
      · rename_i h3
        subst h3
        split at h
        · rename_i b
          injection h with hv
          subst hv
          rfl
        · rename_i s
          injection h with hv
          subst hv
          rfl
        · rename_i w hw1 hw2
          injection h with hv
          subst hv
          cases w <;> rfl
      · rename_i h3
        injection h with hv
        subst hv
        unfold normalizeEntry
        rw [if_neg h1, if_neg h2, if_neg h3]

/-- The normalization loop is idempotent on its own output. -/
theorem normalizeList_idem (params n : List (String × JVal))
    (h : normalizeList params = .ok n) : normalizeList n = .ok n := by
  induction params generalizing n with
  | nil => simp [normalizeList] at h; subst h; rfl
  | cons hd tl ih =>
    obtain ⟨k, v⟩ := hd
    rw [normalizeList] at h
    cases he : normalizeEntry k v with
    | error e => rw [he] at h; exact absurd h (by simp)
    | ok v' =>
      rw [he] at h
      cases ht : normalizeList tl with
      | error e => rw [ht] at h; exact absurd h (by simp)
      | ok rest' =>
        rw [ht] at h
        injection h with hn
        subst hn
        rw [normalizeList, normalizeEntry_idem k v v' he, ih rest' ht]

/-- C10: normalize_order_params is idempotent — whenever it succeeds,
running it again on the returned mapping succeeds and returns that mapping
unchanged. -/
theorem C10_normalize_idempotent (params n : List (String × JVal))
    (h : normalize_order_params params = .ok n) :
    normalize_order_params n = .ok n := by
  cases hl : normalizeList params with
  | error e => simp [normalize_order_params, hl] at h
  | ok m =>
    cases hc : checkRequired requiredNumeric m with
    | error e => simp [normalize_order_params, hl, hc] at h
    | ok u =>
      cases u
      have hm : m = n := by simpa [normalize_order_params, hl, hc] using h
      subst hm
      simp [normalize_order_params, normalizeList_idem params m hl, hc]

/-- The payload loop of sign_order preserves the keys in order. -/
theorem payloadFields_keys (l m : List (String × JVal))
    (h : payloadFields l = some m) : m.map Prod.fst = l.map Prod.fst := by
  induction l generalizing m with
  | nil => simp [payloadFields] at h; subst h; rfl
  | cons hd tl ih =>
    obtain ⟨k, v⟩ := hd
    rw [payloadFields] at h
    cases he : payloadEntry k v with
    | none => rw [he] at h; exact absurd h (by simp)
    | some v' =>
      rw [he] at h
      cases ht : payloadFields tl with
      | none => rw [ht] at h; exact absurd h (by simp)
      | some rest' =>
        rw [ht] at h
        injection h with hm
        subst hm
        simp [ih rest' ht]

/-- The payload loop of sign_order maps each binding entrywise. -/
theorem payloadFields_mem (l m : List (String × JVal))
    (h : payloadFields l = some m) (k : String) (v : JVal)
    (hv : (k, v) ∈ l) :
    ∃ v', payloadEntry k v = some v' ∧ (k, v') ∈ m := by
  induction l generalizing m with
  | nil => cases hv
  | cons hd tl ih =>
    obtain ⟨k0, v0⟩ := hd
    rw [payloadFields] at h
    cases he : payloadEntry k0 v0 with
    | none => rw [he] at h; exact absurd h (by simp)
    | some v0' =>
      rw [he] at h
      cases ht : payloadFields tl with
      | none => rw [ht] at h; exact absurd h (by simp)
      | some rest' =>
        rw [ht] at h
        injection h with hm
        subst hm
        rcases List.mem_cons.mp hv with hhd | htl
        · injection hhd with hk hv0
          subst hk
          subst hv0
          exact ⟨v0', he, List.mem_cons_self _ _⟩
        · obtain ⟨v', hv', hmem⟩ := ih rest' ht htl
          exact ⟨v', hv', List.mem_cons_of_mem _ hmem⟩

/-- Hex rendering doubles the length of a byte string. -/
theorem bytesToHex_length (bs : List Nat) :
    (bytesToHex bs).length = 2 * bs.length := by
  induction bs with
  | nil => rfl
  | cons b bs ih =>
    simp [bytesToHex, byteHex, ih]
    omega

/-- Any indexed read of the hex alphabet with default '0' lands in the hex
alphabet. -/
theorem getD_hexDigits_mem (i : Nat) : hexDigits.getD i '0' ∈ hexDigits := by
  rcases h : hexDigits.get? i with - | c
  · rw [List.getD_eq_get?, h]
    decide
  · rw [List.getD_eq_get?, h]
    exact List.get?_mem h

/-- Every character of a hex rendering is a lowercase hex digit. -/
theorem mem_bytesToHex (bs : List Nat) (c : Char) (hc : c ∈ bytesToHex bs) :
    c ∈ hexDigits := by
  induction bs with
  | nil => cases hc
  | cons b bs ih =>
    rcases List.mem_append.mp hc with hb | hrest
    · rcases List.mem_cons.mp hb with h1 | h2
      · exact h1 ▸ getD_hexDigits_mem _
      · rcases List.mem_cons.mp h2 with h3 | h4
        · exact h3 ▸ getD_hexDigits_mem _
        · cases h4
    · exact ih hrest

/-- C3: for every normalized order and signer, the payload of sign_order
keeps all original order fields followed by signingScheme, signature and
from; int-valued amount fields (sellAmount, buyAmount, feeAmount, when
non-null) become decimal strings, validTo stays a native integer, all other
fields (including null ones) are unchanged; signingScheme is "eip712", from
is the address derived from the private key, and the signature is "0x"
followed by exactly 130 lowercase hexadecimal characters (65 bytes). -/
theorem C3_sign_order_payload (signFn : String → TypedDataDocument → List Nat)
    (addrFn : String → String) (private_key : String) (chain_id : Int)
    (settlement_contract : String) (params payload : List (String × JVal))
    (hlen : (signFn private_key
      (create_order_typed_data chain_id settlement_contract params)).length
        = 65)
    (hok : sign_order signFn addrFn private_key chain_id settlement_contract
      params = some payload) :
    payload.map Prod.fst =
      params.map Prod.fst ++ ["signingScheme", "signature", "from"] ∧
    (∀ k n, (k, JVal.int n) ∈ params → k ∈ amountKeys →
      (k, JVal.str (toString n)) ∈ payload) ∧
    (∀ n : Int, ("validTo", JVal.int n) ∈ params →
      ("validTo", JVal.int n) ∈ payload) ∧
    (∀ k v, (k, v) ∈ params → k ∉ amountKeys → k ≠ "validTo" →
      (k, v) ∈ payload) ∧
    (∀ k, (k, JVal.null) ∈ params → (k, JVal.null) ∈ payload) ∧
    ("signingScheme", JVal.str "eip712") ∈ payload ∧
    ("from", JVal.str (addrFn private_key)) ∈ payload ∧
    ∃ hx : List Char,
      ("signature", JVal.str ("0x" ++ String.mk hx)) ∈ payload ∧
      hx.length = 130 ∧ ∀ c ∈ hx, c ∈ hexDigits := by
  cases hb : payloadFields params with
  | none => simp [sign_order, hb] at hok
  | some base =>
    simp only [sign_order, hb] at hok
    injection hok with hok
    subst hok
    refine ⟨?_, ?_, ?_, ?_, ?_, ?_, ?_, ?_⟩
    · rw [List.map_append, payloadFields_keys params base hb]
      rfl
    · intro k n hmem hk
      obtain ⟨v', hv', hmem'⟩ := payloadFields_mem params base hb k _ hmem
      have : payloadEntry k (JVal.int n) = some (JVal.str (toString n)) := by
        unfold payloadEntry
        rw [if_pos ⟨hk, by simp⟩]
        rfl
      rw [this] at hv'
      injection hv' with hv''
      subst hv''
      exact List.mem_append.mpr (Or.inl hmem')
    · intro n hmem
      obtain ⟨v', hv', hmem'⟩ := payloadFields_mem params base hb _ _ hmem
      have : payloadEntry "validTo" (JVal.int n) = some (JVal.int n) := by
        unfold payloadEntry
        rw [if_neg (by simp [amountKeys]), if_pos ⟨rfl, by simp⟩]
        rfl
      rw [this] at hv'
      injection hv' with hv''
      subst hv''
      exact List.mem_append.mpr (Or.inl hmem')
    · intro k v hmem hk hkv
      obtain ⟨v', hv', hmem'⟩ := payloadFields_mem params base hb k v hmem
      have : payloadEntry k v = some v := by
        unfold payloadEntry
        rw [if_neg (by simp [hk]), if_neg (by simp [hkv])]
      rw [this] at hv'
      injection hv' with hv''
      subst hv''
      exact List.mem_append.mpr (Or.inl hmem')
    · intro k hmem
      obtain ⟨v', hv', hmem'⟩ := payloadFields_mem params base hb k _ hmem
      have : payloadEntry k JVal.null = some JVal.null := by
        unfold payloadEntry
        rw [if_neg (by simp), if_neg (by simp)]
      rw [this] at hv'
      injection hv' with hv''
      subst hv''
      exact List.mem_append.mpr (Or.inl hmem')
    · exact List.mem_append.mpr (Or.inr (by simp))
    · exact List.mem_append.mpr (Or.inr (by simp))
    · refine ⟨bytesToHex (signFn private_key
        (create_order_typed_data chain_id settlement_contract params)),
        List.mem_append.mpr (Or.inr (by simp)), ?_, ?_⟩
      · rw [bytesToHex_length, hlen]
      · intro c hc
        exact mem_bytesToHex _ c hc

/-- Witness for C2 at the spec's round-trip example. -/
theorem C2_required_null_raises_witness :
    "buyAmount" ∈ requiredNumeric ∧ badNull "buyAmount" nullParams ∧
    ∃ e, normalize_order_params nullParams = .error e ∧
      offendingField e.field nullParams := by
  have hb : badNull "buyAmount" nullParams :=
    Or.inr ⟨JVal.null, by decide, Or.inr rfl⟩
  exact ⟨by decide, hb,
    C2_required_null_raises.1 nullParams "buyAmount" (by decide) hb⟩

/-- Witness for C10 at a concrete mixed-shape input. -/
theorem C10_normalize_idempotent_witness :
    normalize_order_params idemParams = .ok idemNormalized ∧
    normalize_order_params idemNormalized = .ok idemNormalized :=
  ⟨rfl, C10_normalize_idempotent idemParams idemNormalized rfl⟩

set_option maxRecDepth 8192 in
/-- Witness for C3 at a concrete order with the constant 65-byte signer. -/
theorem C3_sign_order_payload_witness :
    (constSig "0xkey"
      (create_order_typed_data 1 "0xSettlement" signParams)).length = 65 ∧
    sign_order constSig constAddr "0xkey" 1 "0xSettlement" signParams =
      some signPayload ∧
    ("signingScheme", JVal.str "eip712") ∈ signPayload ∧
    ("from", JVal.str (constAddr "0xkey")) ∈ signPayload := by
  have h := C3_sign_order_payload constSig constAddr "0xkey" 1 "0xSettlement"
    signParams signPayload (by simp [constSig]) rfl
  exact ⟨by simp [constSig], rfl, h.2.2.2.2.2.1, h.2.2.2.2.2.2.1⟩
